import Mathlib

/-!
# Verification of the MrBeast YouTube insights pipeline

Shallow embedding of the metric aggregation and clustering pipeline of
`src/app.py` and of the CSV/metadata writer of
`src/src/scripts/fetch_data.py`, with theorems settling the spec claims.

Numeric columns are embedded as rationals (the data are integers; pandas
promotes columns with missing entries to floats, and the mean is a real
division — rationals give the exact arithmetic the spec describes).
A missing cell (pandas `NaN`) is embedded as `Option.none`.
-/

namespace YTI

/-- One row of the dashboard DataFrame.  The input columns are
`Title`, `Upload_Date`, `Views`, `Likes`, `Comments`; the pipeline
attaches the derived columns `Cluster` and `Performance`, absent
(`none`) on input rows. -/
structure VideoRecord where
  title : String
  uploadDate : Int
  views : Option ℚ
  likes : Option ℚ
  comments : Option ℚ
  cluster : Option Nat := none
  performance : Option String := none
deriving DecidableEq, Repr

/-- The input-column part of a row: everything except the two derived
columns written by the pipeline. -/
def baseOf (r : VideoRecord) : String × Int × Option ℚ × Option ℚ × Option ℚ :=
  (r.title, r.uploadDate, r.views, r.likes, r.comments)

/-- pandas `fillna(0)` on one cell: a missing value becomes `0`. -/
def fillna (o : Option ℚ) : ℚ := o.getD 0

/-- A point of the 3-dimensional feature space (views, likes, comments). -/
abbrev Q3 := ℚ × ℚ × ℚ

/-- Feature matrix built by `add_clusters` (src/app.py line 63): the
selected columns Views, Likes, Comments with `copy()` and `fillna(0)`
applied — one row per record, missing metrics replaced by zero. -/
def featureMatrix (rs : List VideoRecord) : List Q3 :=
  rs.map (fun r => (fillna r.views, fillna r.likes, fillna r.comments))

/-- Squared euclidean distance in the feature space. -/
def sqDist (p c : Q3) : ℚ :=
  (p.1 - c.1) ^ 2 + (p.2.1 - c.2.1) ^ 2 + (p.2.2 - c.2.2) ^ 2

/-- Index of the first minimal element of a list of distances
(`0` on the empty list). -/
def idxOfMin : List ℚ → Nat
  | [] => 0
  | [_] => 0
  | d :: e :: ds =>
    let j := idxOfMin (e :: ds)
    if (e :: ds).getD j 0 < d then j + 1 else 0

/-- Label of the centroid nearest to point `p` (first index on ties). -/
def nearestIdx (cs : List Q3) (p : Q3) : Nat :=
  idxOfMin (cs.map (sqDist p))

/-- k-means assignment step: each point gets the label of its nearest
centroid. -/
def assignStep (points cs : List Q3) : List Nat :=
  points.map (nearestIdx cs)

/-- Mean of a list of feature points (componentwise). -/
def centroid (ps : List Q3) : Q3 :=
  ((ps.map (fun q => q.1)).sum / ps.length,
   (ps.map (fun q => q.2.1)).sum / ps.length,
   (ps.map (fun q => q.2.2)).sum / ps.length)

/-- k-means update step: centroid `j` becomes the mean of the points
currently labelled `j`; an empty group keeps its centroid. -/
def updateStep (points cs : List Q3) : List Q3 :=
  let labels := assignStep points cs
  (List.range cs.length).map (fun j =>
    let members := (points.zip labels).filterMap
      (fun pl => if pl.2 = j then some pl.1 else none)
    if members.isEmpty then cs.getD j (0, 0, 0) else centroid members)

/-- Lloyd iterations of k-means. -/
def lloyd (points : List Q3) : Nat → List Q3 → List Q3
  | 0, cs => cs
  | n + 1, cs => lloyd points n (updateStep points cs)

/-- Default iteration cap of sklearn KMeans (`max_iter=300`). -/
def kmeansMaxIter : Nat := 300

/-- Modelled from the spec: `KMeans(n_clusters=k, random_state=42).fit_predict`
(the clustering library call in `add_clusters`, src/app.py lines 64–65) is
library code not in this repository.  Per the spec it is "a partitional
clustering algorithm (e.g., k-means) with a fixed random seed": the Lloyd
algorithm over the exact rational feature space, with the deterministic
initialisation the fixed seed provides (embedded as the first `k` points)
and the iteration cap of the library.  The library validates its input and
raises (`InvalidInput` in the taxonomy of the spec) when there are no samples,
when `n_clusters < 1`, or when there are fewer samples than clusters. -/
def kmeansFitPredict (k : Nat) (points : List Q3) : Except String (List Nat) :=
  if points.isEmpty then
    .error "InvalidInput: found array with 0 samples"
  else if k = 0 then
    .error "InvalidInput: n_clusters should be an integer greater than 0"
  else if points.length < k then
    .error "InvalidInput: n_samples should be greater than or equal to n_clusters"
  else
    let cs := lloyd points kmeansMaxIter (points.take k)
    .ok (assignStep points cs)

/-- Attach the `Cluster` column: row `i` gets label `labels[i]`. -/
def setClusterColumn (rs : List VideoRecord) (labels : List Nat) :
    List VideoRecord :=
  (rs.zip labels).map (fun rl => { rl.1 with cluster := some rl.2 })

/-- Function `add_clusters(df, n_clusters=3)` of src/app.py lines 61–66.
The code assigns the fitted labels in place (the Cluster column is
written onto the argument frame `df`) and returns that very frame, so
the argument of the caller is mutated; the
in-place update is embedded by explicit state passing: on success the pair
`(result, state of the argument after the call)` is returned, and the two
components are the same (aliased) frame. -/
def add_clusters (df : List VideoRecord) (k : Nat) :
    Except String (List VideoRecord × List VideoRecord) :=
  match kmeansFitPredict k (featureMatrix df) with
  | .error e => .error e
  | .ok labels =>
    let df2 := setClusterColumn df labels
    .ok (df2, df2)

/-- pandas `Series.mean()` over an optionally-missing column: `NaN`
entries are skipped, the mean is taken over the present entries.  (On a
column with no present entry pandas yields `NaN`; that value never
reaches any output row — every comparison against it is `False` — so it
needs no separate representation and the rational `0/0 = 0` stands in.) -/
def pandasMean (xs : List (Option ℚ)) : ℚ :=
  ((xs.filterMap id).sum) / ((xs.filterMap id).length)

/-- Arithmetic mean of the views column as the spec states it (missing cells as zero). -/
def arithMeanViews (rs : List VideoRecord) : ℚ :=
  ((rs.map (fun r => fillna r.views)).sum) / rs.length

/-- Per-cell label rule of src/app.py line 81: "High" if the views
value reaches the threshold, else "Low"; a missing (`NaN`) cell compares
`False` against any threshold, hence "Low". -/
def perfLabel (threshold : ℚ) (v : Option ℚ) : String :=
  match v with
  | none => "Low"
  | some x => if threshold ≤ x then "High" else "Low"

/-- The performance-prediction block of src/app.py lines 80–81: the
threshold is the pandas mean of the Views column, and a Performance
column with the per-cell label is written onto the frame.  (The code
writes the column onto `rt` in place; the updated frame is the value
returned here.) -/
def assign_performance (rs : List VideoRecord) : List VideoRecord :=
  let threshold := pandasMean (rs.map (fun r => r.views))
  rs.map (fun r => { r with performance := some (perfLabel threshold r.views) })

/-- Engagement totals of src/app.py line 54, the column sums of the
selected frame `df[[Likes, Comments]]`: the pair
(total likes, total comments); pandas `sum` skips missing cells. -/
def engagement_data (rs : List VideoRecord) : ℚ × ℚ :=
  (((rs.map (fun r => r.likes)).filterMap id).sum,
   ((rs.map (fun r => r.comments)).filterMap id).sum)

/-- A record with each missing metric replaced by an explicit zero cell
(the record "as if that metric were zero"). -/
def fillMissingZero (r : VideoRecord) : VideoRecord :=
  { r with
    views := some (fillna r.views),
    likes := some (fillna r.likes),
    comments := some (fillna r.comments) }

/-- The full derivation the dashboard runs: `rt = add_clusters(df)` and
then the performance block over `rt` (src/app.py lines 68 and 80–81). -/
def pipeline (df : List VideoRecord) (k : Nat) :
    Except String (List VideoRecord) :=
  match add_clusters df k with
  | .error e => .error e
  | .ok rt => .ok (assign_performance rt.1)

end YTI

namespace Fetch

/-- One element of the `videos` list built by
`YouTubeToCSV.fetch_all_videos` (src/src/scripts/fetch_data.py):
all counts are exact Python integers; the upload date is embedded as the
parsed timestamp, which is what `save_to_csv` sorts by. -/
structure FetchVideo where
  videoId : String
  title : String
  uploadDate : Int
  views : Int
  likes : Int
  dislikes : Int
  comments : Int
deriving DecidableEq, Repr

/-- The `data_summary` object of the JSON metadata sidecar written by
`save_to_csv` (src/src/scripts/fetch_data.py lines 199–212). -/
structure DataSummary where
  total_videos : Nat
  total_views : Int
  total_likes : Int
  total_comments : Int
deriving DecidableEq, Repr

/-- Row sort of save_to_csv (`sort_values` on UploadDate with
`ascending=False`): the rows in descending upload-date order. -/
def sortByDateDesc (vs : List FetchVideo) : List FetchVideo :=
  vs.mergeSort (fun a b => decide (b.uploadDate ≤ a.uploadDate))

/-- Method `YouTubeToCSV.save_to_csv` (src/src/scripts/fetch_data.py
lines 179–224), restricted to the data it derives: with no videos it
returns `None` without writing; otherwise it sorts the rows by upload
date descending, writes them as the CSV, and writes a metadata sidecar
whose `data_summary` counts and sums are computed from that same frame.
The return value embeds `(rows written to the CSV, data_summary)`. -/
def save_to_csv (videos : List FetchVideo) :
    Option (List FetchVideo × DataSummary) :=
  if videos.isEmpty then none
  else
    let df := sortByDateDesc videos
    some (df,
      { total_videos := df.length,
        total_views := (df.map (fun v => v.views)).sum,
        total_likes := (df.map (fun v => v.likes)).sum,
        total_comments := (df.map (fun v => v.comments)).sum })

end Fetch

namespace YTI

/-- Concrete record of the scenario in the spec: views 10, likes 1, comments 0. -/
def recA : VideoRecord :=
  { title := "a", uploadDate := 0, views := some 10, likes := some 1, comments := some 0 }

/-- Concrete record of the scenario in the spec: views 1000, likes 100, comments 50. -/
def recB : VideoRecord :=
  { title := "b", uploadDate := 1, views := some 1000, likes := some 100, comments := some 50 }

/-- Concrete record of the scenario in the spec: views 20, likes 2, comments 1. -/
def recC : VideoRecord :=
  { title := "c", uploadDate := 2, views := some 20, likes := some 2, comments := some 1 }

/-- A record with a missing likes cell. -/
def recMissing : VideoRecord :=
  { title := "m", uploadDate := 3, views := some 7, likes := none, comments := some 2 }

end YTI

/-! ## Helper lemmas -/

namespace YTI

/-- The index of the minimum is a valid index. -/
lemma idxOfMin_lt : ∀ (l : List ℚ), l ≠ [] → idxOfMin l < l.length
  | [_], _ => by simp [idxOfMin]
  | d :: e :: ds, _ => by
    have ih := idxOfMin_lt (e :: ds) (by simp)
    simp only [idxOfMin]
    split
    · simpa using Nat.succ_lt_succ ih
    · simp

/-- A nearest-centroid label is a valid centroid index. -/
lemma nearestIdx_lt (cs : List Q3) (p : Q3) (h : cs ≠ []) :
    nearestIdx cs p < cs.length := by
  have := idxOfMin_lt (cs.map (sqDist p)) (by simpa using h)
  simpa [nearestIdx] using this

/-- The update step keeps the number of centroids. -/
lemma updateStep_length (points cs : List Q3) :
    (updateStep points cs).length = cs.length := by
  simp [updateStep]

/-- Lloyd iteration keeps the number of centroids. -/
lemma lloyd_length (points : List Q3) :
    ∀ (n : Nat) (cs : List Q3), (lloyd points n cs).length = cs.length
  | 0, cs => rfl
  | n + 1, cs => by
    rw [lloyd, lloyd_length points n, updateStep_length]

/-- On a non-empty sample with `1 ≤ k ≤ n`, the embedded
`KMeans.fit_predict` succeeds with one label per point, each in `[0, k)`. -/
lemma kmeansFitPredict_ok (k : Nat) (points : List Q3)
    (hne : points ≠ []) (hk1 : 1 ≤ k) (hkn : k ≤ points.length) :
    ∃ ls, kmeansFitPredict k points = .ok ls ∧
      ls.length = points.length ∧ ∀ l ∈ ls, l < k := by
  have hcs : (lloyd points kmeansMaxIter (points.take k)).length = k := by
    rw [lloyd_length, List.length_take, Nat.min_eq_left hkn]
  have hcsne : lloyd points kmeansMaxIter (points.take k) ≠ [] := by
    intro h
    rw [h, List.length_nil] at hcs
    omega
  refine ⟨assignStep points (lloyd points kmeansMaxIter (points.take k)), ?_, ?_, ?_⟩
  · unfold kmeansFitPredict
    rw [if_neg (by simpa [List.isEmpty_iff] using hne),
        if_neg (by omega), if_neg (by omega)]
  · simp [assignStep]
  · intro l hl
    simp only [assignStep, List.mem_map] at hl
    obtain ⟨p, _, rfl⟩ := hl
    have := nearestIdx_lt _ p hcsne
    omega

/-- The embedded `KMeans.fit_predict` rejects an empty sample and a
sample smaller than the number of clusters. -/
lemma kmeansFitPredict_err (k : Nat) (points : List Q3)
    (h : points = [] ∨ points.length < k) :
    ∃ e, kmeansFitPredict k points = .error e := by
  rcases h with rfl | hlt
  · exact ⟨_, rfl⟩
  · rcases points with _ | ⟨p, ps⟩
    · exact ⟨_, rfl⟩
    · have hk : ¬ k = 0 := by
        simp only [List.length_cons] at hlt
        omega
      refine ⟨"InvalidInput: n_samples should be greater than or equal to n_clusters", ?_⟩
      unfold kmeansFitPredict
      rw [if_neg (by simp), if_neg hk, if_pos hlt]

/-- The feature matrix has one row per record. -/
lemma featureMatrix_length (rs : List VideoRecord) :
    (featureMatrix rs).length = rs.length := by
  simp [featureMatrix]

end YTI

/-! ## Claim theorems: clustering -/

namespace YTI

/-- C1: for every non-empty record list and every `k` with
`1 ≤ k ≤ number of records`, `add_clusters` succeeds and returns a frame
with exactly one row per input record in which every row carries exactly
one cluster label, an integer in `[0, k)`. -/
theorem add_clusters_one_label_per_record_in_range
    (df : List VideoRecord) (k : Nat)
    (hne : df ≠ []) (hk1 : 1 ≤ k) (hkn : k ≤ df.length) :
    ∃ out, add_clusters df k = .ok out ∧
      out.1.length = df.length ∧
      ∀ r ∈ out.1, ∃ l, r.cluster = some l ∧ l < k := by
  obtain ⟨ls, hok, hlen, hlt⟩ := kmeansFitPredict_ok k (featureMatrix df)
    (by simpa [featureMatrix] using hne) hk1
    (by rwa [featureMatrix_length])
  refine ⟨(setClusterColumn df ls, setClusterColumn df ls), ?_, ?_, ?_⟩
  · unfold add_clusters
    rw [hok]
  · rw [featureMatrix_length] at hlen
    simp [setClusterColumn, hlen]
  · intro r hr
    simp only [setClusterColumn, List.mem_map] at hr
    obtain ⟨⟨r0, l⟩, hmem, rfl⟩ := hr
    exact ⟨l, rfl, hlt l (List.of_mem_zip hmem).2⟩

/-- Witness for C1 at the three-record scenario of the spec with `k = 2`. -/
theorem add_clusters_one_label_per_record_in_range_witness :
    ∃ out, add_clusters [recA, recB, recC] 2 = .ok out ∧
      out.1.length = 3 ∧
      ∀ r ∈ out.1, ∃ l, r.cluster = some l ∧ l < 2 := by
  simpa using add_clusters_one_label_per_record_in_range [recA, recB, recC] 2
    (by simp) (by decide) (by decide)

/-- C4: `add_clusters` fails (the clustering library raises the
`InvalidInput` validation error) whenever the record list is empty or `k`
exceeds the number of records, rather than returning labels. -/
theorem add_clusters_invalid_input
    (df : List VideoRecord) (k : Nat)
    (h : df = [] ∨ df.length < k) :
    ∃ e, add_clusters df k = .error e := by
  have h' : featureMatrix df = [] ∨ (featureMatrix df).length < k := by
    rcases h with rfl | hlt
    · exact .inl rfl
    · exact .inr (by rwa [featureMatrix_length])
  obtain ⟨e, he⟩ := kmeansFitPredict_err k (featureMatrix df) h'
  refine ⟨e, ?_⟩
  unfold add_clusters
  rw [he]

/-- Witness for C4 at the scenario of the spec, `k = 5` with only 3 records. -/
theorem add_clusters_invalid_input_witness :
    ∃ e, add_clusters [recA, recB, recC] 5 = .error e :=
  add_clusters_invalid_input [recA, recB, recC] 5 (.inr (by decide))

/-- C5: `add_clusters` is deterministic — the seed is fixed
(`random_state=42`), so two runs on identical input produce identical
cluster assignments. -/
theorem add_clusters_deterministic
    (df1 df2 : List VideoRecord) (k1 k2 : Nat)
    (hdf : df1 = df2) (hk : k1 = k2) :
    add_clusters df1 k1 = add_clusters df2 k2 := by
  rw [hdf, hk]

/-- Witness for C5: two runs on the scenario input agree. -/
theorem add_clusters_deterministic_witness :
    add_clusters [recA, recB, recC] 2 = add_clusters [recA, recB, recC] 2 :=
  add_clusters_deterministic [recA, recB, recC] [recA, recB, recC] 2 2 rfl rfl

/-- On a column with every cell present, skipping the missing cells is
the same as reading each cell with default `0`. -/
lemma filterMap_id_of_all_isSome (xs : List (Option ℚ))
    (h : ∀ x ∈ xs, x.isSome) :
    xs.filterMap id = xs.map (fun o => o.getD 0) := by
  induction xs with
  | nil => rfl
  | cons x xs ih =>
    rcases x with _ | v
    · exact absurd (h none (by simp)) (by simp)
    · simp only [List.filterMap_cons, List.map_cons, Option.getD_some, id]
      rw [ih (fun y hy => h y (by simp [hy]))]

/-- With every views cell present, the pandas mean of the views column is
the arithmetic mean the spec describes. -/
lemma pandasMean_views_eq_arith (rs : List VideoRecord)
    (h : ∀ r ∈ rs, (r.views).isSome) :
    pandasMean (rs.map (fun r => r.views)) = arithMeanViews rs := by
  unfold pandasMean arithMeanViews
  rw [filterMap_id_of_all_isSome _ (by
    intro x hx
    obtain ⟨r, hr, rfl⟩ := List.mem_map.mp hx
    exact h r hr)]
  simp [fillna, List.map_map, Function.comp_def]

/-- C2: with all views present, `assign_performance` computes the
arithmetic mean of the views column and attaches to each record the label
"High" exactly when its views reach the mean, "Low" otherwise; ties at
the mean get "High" (the comparison is `>=`). -/
theorem assign_performance_threshold_rule (rs : List VideoRecord)
    (hne : rs ≠ []) (hall : ∀ r ∈ rs, (r.views).isSome) :
    assign_performance rs = rs.map (fun r =>
      { r with performance := some (if arithMeanViews rs ≤ fillna r.views then "High" else "Low") }) := by
  unfold assign_performance
  rw [pandasMean_views_eq_arith rs hall]
  apply List.map_congr_left
  intro r hr
  obtain ⟨v, hv⟩ := Option.isSome_iff_exists.mp (hall r hr)
  rw [hv]
  simp [perfLabel, fillna]

/-- Witness for C2 at the three-record scenario. -/
theorem assign_performance_threshold_rule_witness :
    assign_performance [recA, recB, recC] = [recA, recB, recC].map (fun r =>
      { r with performance := some (if arithMeanViews [recA, recB, recC] ≤ fillna r.views then "High" else "Low") }) :=
  assign_performance_threshold_rule [recA, recB, recC] (by simp) (by decide)

/-- C3 counterexample: on the empty record list the performance block
does not fail — the pandas mean is `NaN`, the row-wise `apply` never
runs, and the (empty) labelling is returned without any error. -/
theorem assign_performance_empty_counterexample :
    assign_performance ([] : List VideoRecord) = [] := rfl

/-- C3 as amended: on an empty sequence `assign_performance` returns the
empty labelling rather than failing; in general it returns one label per
record. -/
theorem assign_performance_empty_returns_empty :
    (assign_performance ([] : List VideoRecord)).isEmpty = true ∧
    ∀ rs : List VideoRecord, (assign_performance rs).length = rs.length := by
  constructor
  · rfl
  · intro rs
    simp [assign_performance]

/-- A non-empty list of rationals has a least member. -/
lemma exists_min_mem : ∀ (l : List ℚ), l ≠ [] → ∃ m ∈ l, ∀ y ∈ l, m ≤ y
  | [x], _ => ⟨x, by simp, by simp⟩
  | x :: y :: ys, _ => by
    obtain ⟨m, hm, hle⟩ := exists_min_mem (y :: ys) (by simp)
    rcases le_total x m with h | h
    · refine ⟨x, by simp, ?_⟩
      intro z hz
      rcases List.mem_cons.mp hz with rfl | hz
      · exact le_refl z
      · exact le_trans h (hle z hz)
    · refine ⟨m, List.mem_cons_of_mem _ hm, ?_⟩
      intro z hz
      rcases List.mem_cons.mp hz with rfl | hz
      · exact h
      · exact hle z hz

/-- A lower bound of the members, multiplied by the length, bounds the sum. -/
lemma mul_length_le_sum (l : List ℚ) (c : ℚ) (h : ∀ y ∈ l, c ≤ y) :
    c * l.length ≤ l.sum := by
  induction l with
  | nil => simp
  | cons x xs ih =>
    have h1 := h x (by simp)
    have h2 := ih (fun y hy => h y (by simp [hy]))
    simp only [List.length_cons, List.sum_cons]
    push_cast
    have hx : c * ((xs.length : ℚ) + 1) = c * (xs.length : ℚ) + c := by ring
    rw [hx]
    linarith

/-- Strict version: if moreover some member strictly exceeds the lower
bound, the bound times the length is strictly below the sum. -/
lemma mul_length_lt_sum (l : List ℚ) (c : ℚ) (h : ∀ y ∈ l, c ≤ y)
    (hex : ∃ y ∈ l, c < y) : c * l.length < l.sum := by
  induction l with
  | nil =>
    obtain ⟨y, hy, _⟩ := hex
    exact absurd hy (List.not_mem_nil y)
  | cons x xs ih =>
    obtain ⟨y, hy, hcy⟩ := hex
    simp only [List.length_cons, List.sum_cons]
    push_cast
    have hx : c * ((xs.length : ℚ) + 1) = c * (xs.length : ℚ) + c := by ring
    rw [hx]
    rcases List.mem_cons.mp hy with rfl | hy'
    · have h2 := mul_length_le_sum xs c (fun z hz => h z (by simp [hz]))
      linarith
    · have h2 := ih (fun z hz => h z (by simp [hz])) ⟨y, hy', hcy⟩
      have h1 := h x (by simp)
      linarith

/-- In a non-empty list whose members are not all equal, some member lies
strictly below the arithmetic mean. -/
lemma exists_lt_mean (l : List ℚ) (hne : l ≠ [])
    (h2 : ∃ a ∈ l, ∃ b ∈ l, a ≠ b) :
    ∃ x ∈ l, x < l.sum / l.length := by
  obtain ⟨m, hm, hle⟩ := exists_min_mem l hne
  obtain ⟨a, ha, b, hb, hab⟩ := h2
  have hex : ∃ y ∈ l, m < y := by
    rcases eq_or_ne a m with rfl | ha'
    · exact ⟨b, hb, lt_of_le_of_ne (hle b hb) hab⟩
    · exact ⟨a, ha, lt_of_le_of_ne (hle a ha) (Ne.symm ha')⟩
  have hlt := mul_length_lt_sum l m hle hex
  have hl0 : (0 : ℚ) < l.length := by
    exact_mod_cast List.length_pos.mpr hne
  exact ⟨m, hm, (lt_div_iff₀ hl0).mpr hlt⟩

/-- C6: with all views present and not all views equal,
`assign_performance` labels at least one record "Low" (the record with
minimal views lies strictly below the mean). -/
theorem assign_performance_some_low (rs : List VideoRecord)
    (hne : rs ≠ []) (hall : ∀ r ∈ rs, (r.views).isSome)
    (hdiff : ¬ ∀ r ∈ rs, ∀ s ∈ rs, r.views = s.views) :
    ∃ r ∈ assign_performance rs, r.performance = some "Low" := by
  push_neg at hdiff
  obtain ⟨r1, hr1, r2, hr2, h12⟩ := hdiff
  have hxy : ∃ a ∈ rs.map (fun r => fillna r.views), ∃ b ∈ rs.map (fun r => fillna r.views), a ≠ b := by
    refine ⟨fillna r1.views, List.mem_map_of_mem _ hr1,
            fillna r2.views, List.mem_map_of_mem _ hr2, ?_⟩
    obtain ⟨v1, hv1⟩ := Option.isSome_iff_exists.mp (hall r1 hr1)
    obtain ⟨v2, hv2⟩ := Option.isSome_iff_exists.mp (hall r2 hr2)
    rw [hv1, hv2] at h12 ⊢
    simpa [fillna] using fun hv => h12 (by rw [hv])
  obtain ⟨x, hx, hxlt⟩ := exists_lt_mean (rs.map (fun r => fillna r.views))
    (by simpa using hne) hxy
  obtain ⟨r0, hr0, hr0x⟩ := List.mem_map.mp hx
  have hmean : (rs.map (fun r => fillna r.views)).sum /
      ((rs.map (fun r => fillna r.views)).length : ℚ) = arithMeanViews rs := by
    rw [List.length_map]
    rfl
  rw [hmean] at hxlt
  refine ⟨{ r0 with performance := some (perfLabel (pandasMean (rs.map (fun r => r.views))) r0.views) },
          List.mem_map_of_mem _ hr0, ?_⟩
  simp only
  rw [pandasMean_views_eq_arith rs hall]
  obtain ⟨v0, hv0⟩ := Option.isSome_iff_exists.mp (hall r0 hr0)
  rw [hv0]
  have hv0x : v0 = x := by
    rw [← hr0x, hv0]
    rfl
  subst hv0x
  rw [← hr0x] at hxlt
  simp only [fillna, hv0, Option.getD_some] at hxlt
  simp [perfLabel, not_le.mpr hxlt]

/-- Witness for C6 at the three-record scenario (views 10, 1000, 20). -/
theorem assign_performance_some_low_witness :
    ∃ r ∈ assign_performance [recA, recB, recC], r.performance = some "Low" :=
  assign_performance_some_low [recA, recB, recC] (by simp) (by decide) (by decide)

/-- Attaching the cluster column leaves the input columns of every row,
and the row order, unchanged. -/
lemma map_baseOf_setClusterColumn :
    ∀ (df : List VideoRecord) (ls : List Nat), df.length = ls.length →
      (setClusterColumn df ls).map baseOf = df.map baseOf
  | [], _, _ => by simp [setClusterColumn]
  | r :: df, [], h => by simp at h
  | r :: df, l :: ls, h => by
    have ih := map_baseOf_setClusterColumn df ls (by simpa using h)
    simp only [setClusterColumn, List.zip_cons_cons, List.map_cons] at ih ⊢
    rw [ih]
    rfl

/-- Attaching the performance column leaves the input columns of every
row, and the row order, unchanged. -/
lemma map_baseOf_assign_performance (rs : List VideoRecord) :
    (assign_performance rs).map baseOf = rs.map baseOf := by
  simp only [assign_performance, List.map_map]
  exact List.map_congr_left fun r _ => rfl

/-- Every row of `setClusterColumn` carries a cluster label. -/
lemma cluster_isSome_of_mem_setClusterColumn (df : List VideoRecord)
    (ls : List Nat) (r : VideoRecord) (h : r ∈ setClusterColumn df ls) :
    r.cluster.isSome := by
  simp only [setClusterColumn, List.mem_map] at h
  obtain ⟨⟨r0, l⟩, _, rfl⟩ := h
  rfl

/-- C7, as amended: on success the pipeline returns the input row set
with exactly the two derived columns `Cluster` and `Performance` filled
in — every pre-existing column, its values, and the row order are
unchanged — but the frame `add_clusters` returns is the post-call state
of its argument (the code assigns the Cluster column onto the argument
and returns it), so the input frame is mutated rather than copied. -/
theorem pipeline_adds_two_columns_preserving_base
    (df : List VideoRecord) (k : Nat)
    (hne : df ≠ []) (hk1 : 1 ≤ k) (hkn : k ≤ df.length) :
    ∃ out, add_clusters df k = .ok out ∧
      out.2 = out.1 ∧
      pipeline df k = .ok (assign_performance out.1) ∧
      (assign_performance out.1).map baseOf = df.map baseOf ∧
      ∀ r ∈ assign_performance out.1, r.cluster.isSome ∧ r.performance.isSome := by
  obtain ⟨ls, hok, hlen, _⟩ := kmeansFitPredict_ok k (featureMatrix df)
    (by simpa [featureMatrix] using hne) hk1 (by rwa [featureMatrix_length])
  rw [featureMatrix_length] at hlen
  refine ⟨(setClusterColumn df ls, setClusterColumn df ls), ?_, rfl, ?_, ?_, ?_⟩
  · unfold add_clusters
    rw [hok]
  · unfold pipeline add_clusters
    rw [hok]
  · rw [map_baseOf_assign_performance, map_baseOf_setClusterColumn df ls hlen.symm]
  · intro r hr
    simp only [assign_performance, List.mem_map] at hr
    obtain ⟨r0, hr0, rfl⟩ := hr
    exact ⟨cluster_isSome_of_mem_setClusterColumn df ls r0 hr0, rfl⟩

/-- Witness for the amended C7 at the three-record scenario with `k = 2`. -/
theorem pipeline_adds_two_columns_preserving_base_witness :
    ∃ out, add_clusters [recA, recB, recC] 2 = .ok out ∧
      out.2 = out.1 ∧
      pipeline [recA, recB, recC] 2 = .ok (assign_performance out.1) ∧
      (assign_performance out.1).map baseOf = [recA, recB, recC].map baseOf ∧
      ∀ r ∈ assign_performance out.1, r.cluster.isSome ∧ r.performance.isSome :=
  pipeline_adds_two_columns_preserving_base [recA, recB, recC] 2
    (by simp) (by decide) (by decide)

/-- C7 counterexample: the input frame is mutated.  Running
`add_clusters` on the one-record frame `[recA]` leaves the argument (its
post-call state, the second component) different from the original input
— the call succeeded, and the argument now carries a `Cluster` column. -/
theorem add_clusters_mutates_input_counterexample :
    (add_clusters [recA] 1).toOption.map (fun out => out.2) ≠ some [recA] ∧
    (add_clusters [recA] 1).toOption ≠ none := by
  obtain ⟨ls, hok, hlen, _⟩ := kmeansFitPredict_ok 1 (featureMatrix [recA])
    (by simp [featureMatrix]) le_rfl (by simp [featureMatrix])
  rw [featureMatrix_length] at hlen
  obtain ⟨l, rfl⟩ := List.length_eq_one.mp hlen
  have hadd : add_clusters [recA] 1 =
      .ok (setClusterColumn [recA] [l], setClusterColumn [recA] [l]) := by
    unfold add_clusters
    rw [hok]
  rw [hadd]
  refine ⟨?_, by simp [Except.toOption]⟩
  simp only [Except.toOption, Option.map_some', ne_eq, Option.some.injEq]
  intro h
  have hcl := congrArg (fun xs => (xs.map VideoRecord.cluster)) h
  simp [setClusterColumn, recA] at hcl

/-- C8: `add_clusters` substitutes 0 for every missing metric cell when
building the feature matrix, so a record with a missing metric is
clustered exactly as the same record with that metric equal to zero. -/
theorem add_clusters_missing_metric_as_zero (rs : List VideoRecord) (k : Nat) :
    featureMatrix (rs.map fillMissingZero) = featureMatrix rs ∧
    kmeansFitPredict k (featureMatrix (rs.map fillMissingZero)) =
      kmeansFitPredict k (featureMatrix rs) := by
  have h : featureMatrix (rs.map fillMissingZero) = featureMatrix rs := by
    simp [featureMatrix, fillMissingZero, fillna, List.map_map, Function.comp_def]
  exact ⟨h, by rw [h]⟩

/-- Summing a column that skips missing cells equals summing it with
missing cells read as zero. -/
lemma sum_filterMap_id (xs : List (Option ℚ)) :
    (xs.filterMap id).sum = (xs.map (fun o => o.getD 0)).sum := by
  induction xs with
  | nil => rfl
  | cons x xs ih =>
    rcases x with _ | v <;> simp [List.filterMap_cons, ih]

/-- C9: `engagement_data` returns the exact totals of the likes column
and of the comments column — each component equals the element-by-element
sum of the corresponding column (missing cells contributing zero). -/
theorem engagement_data_exact_column_sums (rs : List VideoRecord) :
    engagement_data rs =
      ((rs.map (fun r => fillna r.likes)).sum,
       (rs.map (fun r => fillna r.comments)).sum) := by
  unfold engagement_data
  rw [sum_filterMap_id, sum_filterMap_id]
  simp [fillna, List.map_map, Function.comp_def]

end YTI

/-! ## Claim theorems: fetcher -/

namespace Fetch

/-- The date sort is a permutation of the input rows. -/
lemma sortByDateDesc_perm (vs : List FetchVideo) :
    (sortByDateDesc vs).Perm vs :=
  List.mergeSort_perm vs _

/-- C10: with at least one video, `save_to_csv` writes a CSV and a
metadata sidecar whose `data_summary` is consistent with the table it
wrote: `total_videos` is the number of rows, and `total_views`,
`total_likes`, `total_comments` are the exact integer column sums of the
frame written to the CSV (equivalently, since the sort is a permutation,
of the input video list). -/
theorem save_to_csv_metadata_consistent (videos : List FetchVideo)
    (hne : videos ≠ []) :
    ∃ out, save_to_csv videos = some out ∧
      out.2.total_videos = out.1.length ∧
      out.2.total_views = (out.1.map (fun v => v.views)).sum ∧
      out.2.total_likes = (out.1.map (fun v => v.likes)).sum ∧
      out.2.total_comments = (out.1.map (fun v => v.comments)).sum ∧
      out.2.total_videos = videos.length ∧
      out.2.total_views = (videos.map (fun v => v.views)).sum ∧
      out.2.total_likes = (videos.map (fun v => v.likes)).sum ∧
      out.2.total_comments = (videos.map (fun v => v.comments)).sum := by
  have hperm := sortByDateDesc_perm videos
  have hsave : save_to_csv videos = some (sortByDateDesc videos,
      { total_videos := (sortByDateDesc videos).length,
        total_views := ((sortByDateDesc videos).map (fun v => v.views)).sum,
        total_likes := ((sortByDateDesc videos).map (fun v => v.likes)).sum,
        total_comments := ((sortByDateDesc videos).map (fun v => v.comments)).sum }) := by
    unfold save_to_csv
    rw [if_neg (by simpa [List.isEmpty_iff] using hne)]
  refine ⟨_, hsave, rfl, rfl, rfl, rfl, ?_, ?_, ?_, ?_⟩
  · exact hperm.length_eq
  · exact (hperm.map (fun v => v.views)).sum_eq
  · exact (hperm.map (fun v => v.likes)).sum_eq
  · exact (hperm.map (fun v => v.comments)).sum_eq

/-- Witness for C10 on a concrete two-video list. -/
theorem save_to_csv_metadata_consistent_witness :
    ∃ out, save_to_csv [⟨"v1", "t1", 5, 100, 10, 0, 3⟩, ⟨"v2", "t2", 9, 200, 20, 0, 4⟩] = some out ∧
      out.2.total_videos = out.1.length ∧
      out.2.total_views = (out.1.map (fun v => v.views)).sum ∧
      out.2.total_likes = (out.1.map (fun v => v.likes)).sum ∧
      out.2.total_comments = (out.1.map (fun v => v.comments)).sum ∧
      out.2.total_videos = [⟨"v1", "t1", 5, 100, 10, 0, 3⟩, (⟨"v2", "t2", 9, 200, 20, 0, 4⟩ : FetchVideo)].length ∧
      out.2.total_views = ([⟨"v1", "t1", 5, 100, 10, 0, 3⟩, (⟨"v2", "t2", 9, 200, 20, 0, 4⟩ : FetchVideo)].map (fun v => v.views)).sum ∧
      out.2.total_likes = ([⟨"v1", "t1", 5, 100, 10, 0, 3⟩, (⟨"v2", "t2", 9, 200, 20, 0, 4⟩ : FetchVideo)].map (fun v => v.likes)).sum ∧
      out.2.total_comments = ([⟨"v1", "t1", 5, 100, 10, 0, 3⟩, (⟨"v2", "t2", 9, 200, 20, 0, 4⟩ : FetchVideo)].map (fun v => v.comments)).sum :=
  save_to_csv_metadata_consistent
    [⟨"v1", "t1", 5, 100, 10, 0, 3⟩, ⟨"v2", "t2", 9, 200, 20, 0, 4⟩] (by simp)

end Fetch
